import Mathlib

/-!
Verification of the Fat-Tree static-routing program
(`src/Fat-Tree/DCN_FatTree_Custom.cc`) and of the self-learning L2 switch
(`src/l2-switch-protocol/l2-switch-protocol.cc`).

The C++ program builds a k=4 fat-tree (4 pods, each with 4 servers, 2 access
switches and 2 aggregation switches, plus 4 core switches), assigns one /30
subnet to every link and installs static aggregated routes on every node.
Every quantity below is translated directly from the loops and string-built
addresses of `main` in that file; line references are given at each
definition.
-/

namespace FatTree

/-- An IPv4 address as its four dotted octets. -/
structure IP where
  a : Nat
  b : Nat
  c : Nat
  d : Nat
deriving DecidableEq, Repr

/-- The 32-bit numeric value of an address. -/
def IP.toNat (ip : IP) : Nat :=
  ((ip.a * 256 + ip.b) * 256 + ip.c) * 256 + ip.d

/-- Longest-prefix matching: `x` lies inside the network `y`/`m`. -/
def maskMatch (m : Nat) (dest x : IP) : Bool :=
  x.toNat / 2 ^ (32 - m) == dest.toNat / 2 ^ (32 - m)

/-- The nodes of the k=4 fabric (lines 120-125 of the source):
pod servers 0-3, access switches 0-1 (pod nodes 4-5), aggregation
switches 0-1 (pod nodes 6-7) and core switches 0-3. -/
inductive FNode where
  | server (pod s : Nat)
  | access (pod a : Nat)
  | aggr (pod g : Nat)
  | core (c : Nat)
deriving DecidableEq, Repr

/-- Fat-Tree parameter, `const int K = 4` (line 56). -/
def K : Nat := 4

/-- `NUM_PODS = K` (line 57). -/
def NUM_PODS : Nat := K

/-- `NUM_CORE = (K/2)*(K/2)` (line 58). -/
def NUM_CORE : Nat := (K / 2) * (K / 2)

/-- Access switch of server `s`: `(server < 2) ? 4 : 5`, local id 0 or 1
(lines 168-169). -/
def accessOfServer (s : Nat) : Nat := if s < 2 then 0 else 1

/-- Subnet base of the server-to-access link of server `s` in `pod`:
`10.pod.switchId.(server*4)/30` (lines 178-182). -/
def serverLinkBase (pod s : Nat) : IP :=
  ⟨10, pod, accessOfServer s, s * 4⟩

/-- Server-side address on its access link: the helper hands out host 1
then host 2 inside each freshly set /30 base. -/
def serverAddr (pod s : Nat) : IP :=
  { serverLinkBase pod s with d := s * 4 + 1 }

/-- Access-switch-side address on the link to server `s` (host 2). -/
def accessServerAddr (pod s : Nat) : IP :=
  { serverLinkBase pod s with d := s * 4 + 2 }

/-- Subnet base of the access(`lo`)-to-aggregation(`up`) link:
`linkId = lowerId*2 + upperId`, `offset = 16 + linkId*4`,
`10.pod.(2+upperId).offset/30` (lines 205-212). -/
def accAggrLinkBase (pod lo up : Nat) : IP :=
  ⟨10, pod, 2 + up, 16 + (lo * 2 + up) * 4⟩

/-- Access-switch-side address of that link (assigned first, host 1). -/
def accAggrAccessAddr (pod lo up : Nat) : IP :=
  { accAggrLinkBase pod lo up with d := 16 + (lo * 2 + up) * 4 + 1 }

/-- Aggregation-switch-side address of that link (host 2). -/
def accAggrAggrAddr (pod lo up : Nat) : IP :=
  { accAggrLinkBase pod lo up with d := 16 + (lo * 2 + up) * 4 + 2 }

/-- The running core-link counter: the creation loops are
`for i < K/2, for j < K/2, for pod < NUM_PODS` with `coreLink++`
at each iteration (lines 226-259). -/
def coreSeq (i j pod : Nat) : Nat := (i * (K / 2) + j) * NUM_PODS + pod

/-- Subnet base of a core link: `10.10.(coreLink/64).((coreLink mod 64)*4)/30`
(lines 242-246).  Each dotted octet is parsed by the library into an
unsigned byte, hence the `% 256`; for k=4 every value is below 256. -/
def coreLinkBaseOfSeq (seq : Nat) : IP :=
  ⟨10, 10, seq / 64 % 256, seq % 64 * 4⟩

/-- Subnet base of the link between aggregation switch `i` of `pod` and
core switch `i*(K/2)+j`. -/
def coreLinkBase (i j pod : Nat) : IP :=
  coreLinkBaseOfSeq (coreSeq i j pod)

/-- Aggregation-side address of that core link (installed first, host 1). -/
def coreLinkAggrAddr (i j pod : Nat) : IP :=
  { coreLinkBase i j pod with d := coreSeq i j pod % 64 * 4 + 1 }

/-- Core-side address of that core link (host 2). -/
def coreLinkCoreAddr (i j pod : Nat) : IP :=
  { coreLinkBase i j pod with d := coreSeq i j pod % 64 * 4 + 2 }

/-- All addresses owned by a node, one per incident link, in the order the
links are created by the program. -/
def nodeAddrs : FNode → List IP
  | .server pod s => [serverAddr pod s]
  | .access pod a =>
      [accessServerAddr pod (2 * a), accessServerAddr pod (2 * a + 1),
       accAggrAccessAddr pod a 0, accAggrAccessAddr pod a 1]
  | .aggr pod g =>
      [accAggrAggrAddr pod 0 g, accAggrAggrAddr pod 1 g,
       coreLinkAggrAddr g 0 pod, coreLinkAggrAddr g 1 pod]
  | .core c =>
      (List.range NUM_PODS).map fun pod => coreLinkCoreAddr (c / 2) (c % 2) pod

/-- Every node of the k=4 instantiation. -/
def allNodes : List FNode :=
  ((List.range NUM_PODS).flatMap fun pod =>
    ((List.range 4).map (FNode.server pod)) ++
    [FNode.access pod 0, FNode.access pod 1, FNode.aggr pod 0, FNode.aggr pod 1]) ++
  (List.range NUM_CORE).map FNode.core

/-- The unique node owning a given link-endpoint address. -/
def ownerOf (ip : IP) : Option FNode :=
  allNodes.find? fun n => (nodeAddrs n).any fun x => decide (x = ip)

/-- Two nodes are linked iff they share a /30 (they each own an address of
the same link subnet). -/
def linked (n m : FNode) : Bool :=
  (nodeAddrs n).any fun x =>
    (nodeAddrs m).any fun y => decide (x.toNat / 4 = y.toNat / 4) && !decide (x = y)

/-- One entry of a static routing table: destination network, prefix
length, optional gateway (`none` for a directly connected network) and the
egress interface, identified — as `GetInterfaceForAddress` does — by the
node's own address on the egress link. -/
structure RouteEntry where
  dest : IP
  maskLen : Nat
  gw : Option IP
  iface : IP
deriving DecidableEq, Repr

/-- The routes the ns-3 stack itself installs when each interface comes up:
one connected /30 network route per incident link (the loopback /8 route,
which can never match a `10.x` destination, is omitted). -/
def connectedRoutes (n : FNode) : List RouteEntry :=
  match n with
  | .server pod s =>
      [⟨serverLinkBase pod s, 30, none, serverAddr pod s⟩]
  | .access pod a =>
      [⟨serverLinkBase pod (2 * a), 30, none, accessServerAddr pod (2 * a)⟩,
       ⟨serverLinkBase pod (2 * a + 1), 30, none, accessServerAddr pod (2 * a + 1)⟩,
       ⟨accAggrLinkBase pod a 0, 30, none, accAggrAccessAddr pod a 0⟩,
       ⟨accAggrLinkBase pod a 1, 30, none, accAggrAccessAddr pod a 1⟩]
  | .aggr pod g =>
      [⟨accAggrLinkBase pod 0 g, 30, none, accAggrAggrAddr pod 0 g⟩,
       ⟨accAggrLinkBase pod 1 g, 30, none, accAggrAggrAddr pod 1 g⟩,
       ⟨coreLinkBase g 0 pod, 30, none, coreLinkAggrAddr g 0 pod⟩,
       ⟨coreLinkBase g 1 pod, 30, none, coreLinkAggrAddr g 1 pod⟩]
  | .core c =>
      (List.range NUM_PODS).map fun pod =>
        ⟨coreLinkBase (c / 2) (c % 2) pod, 30, none, coreLinkCoreAddr (c / 2) (c % 2) pod⟩

/-- The static routes section 5 of `main` installs, in installation order.

* Servers (lines 269-285): one default route via the access switch's
  address on the shared link.
* Access switches (lines 289-340): one /24 toward the sibling access
  switch's server octet and one /16 per other pod, all via the upper-0
  aggregation neighbor.
* Aggregation switches (lines 344-402): one /24 per attached access
  switch downward, then for each attached core switch (`coreId =
  aggrId*(K/2)+j`) one /16 per other pod via that core switch.
* Core switches (lines 406-432): one /16 per pod via the pod's
  aggregation switch on the shared link. -/
def staticRoutes : FNode → List RouteEntry
  | .server pod s =>
      [⟨⟨0, 0, 0, 0⟩, 0, some (accessServerAddr pod s), serverAddr pod s⟩]
  | .access pod a =>
      ⟨⟨10, pod, 1 - a, 0⟩, 24, some (accAggrAggrAddr pod a 0), accAggrAccessAddr pod a 0⟩ ::
      (((List.range NUM_PODS).filter fun q => !decide (q = pod)).map fun q =>
        ⟨⟨10, q, 0, 0⟩, 16, some (accAggrAggrAddr pod a 0), accAggrAccessAddr pod a 0⟩)
  | .aggr pod g =>
      ((List.range 2).map fun acc =>
        ⟨⟨10, pod, acc, 0⟩, 24, some (accAggrAccessAddr pod acc g), accAggrAggrAddr pod acc g⟩) ++
      ((List.range (K / 2)).flatMap fun j =>
        ((List.range NUM_PODS).filter fun q => !decide (q = pod)).map fun q =>
          ⟨⟨10, q, 0, 0⟩, 16, some (coreLinkCoreAddr g j pod), coreLinkAggrAddr g j pod⟩)
  | .core c =>
      (List.range NUM_PODS).map fun pod =>
        ⟨⟨10, pod, 0, 0⟩, 16, some (coreLinkAggrAddr (c / 2) (c % 2) pod),
         coreLinkCoreAddr (c / 2) (c % 2) pod⟩

/-- A node's full table: connected networks plus the installed static routes. -/
def routeTable (n : FNode) : List RouteEntry :=
  connectedRoutes n ++ staticRoutes n

/-- All entries of a table that match the destination with maximal prefix
length (longest-prefix match; ties are kept as candidates). -/
def matchingBest (t : List RouteEntry) (dst : IP) : List RouteEntry :=
  let ms := t.filter fun e => maskMatch e.maskLen e.dest dst
  let best := (ms.map (·.maskLen)).foldr max 0
  ms.filter fun e => e.maskLen == best

/-- A packet at `n` addressed to `dst` is delivered when `n` owns `dst`. -/
def delivered (n : FNode) (dst : IP) : Bool :=
  (nodeAddrs n).any fun x => decide (x = dst)

/-- The possible next nodes of a packet at `n`: resolve each best-matching
entry's gateway (or, on a connected route, the destination itself) to the
node owning that address.  Several candidates arise exactly where the table
holds several equal-prefix matches. -/
def nextNodes (n : FNode) (dst : IP) : List FNode :=
  (matchingBest (routeTable n) dst).filterMap fun e => ownerOf (e.gw.getD dst)

/-- All forwarding paths of a packet injected at `n` toward `dst`, under
any resolution of equal-prefix ties, cut off at `fuel` hops.  A stuck node
(no matching route) terminates its path undelivered. -/
def runPaths : Nat → FNode → IP → List (List FNode)
  | 0, n, _ => [[n]]
  | fuel + 1, n, dst =>
      if delivered n dst then [[n]]
      else
        let nxt := nextNodes n dst
        if nxt.isEmpty then [[n]]
        else nxt.flatMap fun m => (runPaths fuel m dst).map fun p => n :: p

/-- The topology's per-pair bound on intermediate switches: a packet
between servers of one access switch crosses that switch only; across
access switches of one pod it crosses access-aggregation-access; across
pods it crosses access-aggregation-core-aggregation-access. -/
def hopBound (p1 s1 p2 s2 : Nat) : Nat :=
  if p1 = p2 then (if accessOfServer s1 = accessOfServer s2 then 1 else 3) else 5

/-- Two /30 subnets (4 addresses from each base) do not overlap. -/
def disjoint30 (x y : IP) : Prop :=
  x.toNat + 4 ≤ y.toNat ∨ y.toNat + 4 ≤ x.toNat

instance (x y : IP) : Decidable (disjoint30 x y) :=
  inferInstanceAs (Decidable (_ ∨ _))

/-- The 16 server addresses of the k=4 fabric. -/
def allServerAddrs : List IP :=
  (List.range NUM_PODS).flatMap fun p => (List.range 4).map fun s => serverAddr p s

/-- Number of aggregation-core links for fabric parameter `k`: the
creation loops run `i < k/2`, `j < k/2`, `pod < NUM_PODS` with
`NUM_PODS = k`. -/
def numCoreLinksG (k : Nat) : Nat := k / 2 * (k / 2) * k

/-- The /30 subnet bases of every link the program creates, in creation
order, with the constant `K` left as a parameter: the pod and core loops
run to `NUM_PODS = k` and `numCoreLinksG k`, while the pod-internal
structure (4 servers, 2 access and 2 aggregation switches) is the one the
source hard-codes. -/
def allLinkBasesG (k : Nat) : List IP :=
  ((List.range k).flatMap fun pod =>
    ((List.range 4).map fun s => serverLinkBase pod s) ++
    ((List.range 2).flatMap fun lo =>
      (List.range 2).map fun up => accAggrLinkBase pod lo up)) ++
  (List.range (numCoreLinksG k)).map coreLinkBaseOfSeq

/-- The 48 link subnets of the k=4 instantiation. -/
def allLinkBases : List IP := allLinkBasesG K

/-- A link of the fabric, as keyed by the program's `interfaces` map:
server-access, access-aggregation, or aggregation-core. -/
inductive LinkKey where
  | srv (pod s : Nat)
  | acc (pod lo up : Nat)
  | cor (i j pod : Nat)
deriving DecidableEq, Repr

/-- The base the program passes to `SetBase` for each link. -/
def linkBaseOf : LinkKey → IP
  | .srv pod s => serverLinkBase pod s
  | .acc pod lo up => accAggrLinkBase pod lo up
  | .cor i j pod => coreLinkBase i j pod

/-- First assigned address of each link (the first installed device). -/
def linkAddrA : LinkKey → IP
  | .srv pod s => serverAddr pod s
  | .acc pod lo up => accAggrAccessAddr pod lo up
  | .cor i j pod => coreLinkAggrAddr i j pod

/-- Second assigned address of each link. -/
def linkAddrB : LinkKey → IP
  | .srv pod s => accessServerAddr pod s
  | .acc pod lo up => accAggrAggrAddr pod lo up
  | .cor i j pod => coreLinkCoreAddr i j pod

/-- The 48 links in the exact order the program creates and addresses
them (pod-internal links pod by pod, then the core links). -/
def linkEvents : List LinkKey :=
  ((List.range NUM_PODS).flatMap fun pod =>
    ((List.range 4).map (LinkKey.srv pod)) ++
    ((List.range 2).flatMap fun lo =>
      (List.range 2).map (LinkKey.acc pod lo))) ++
  ((List.range (K / 2)).flatMap fun i =>
    (List.range (K / 2)).flatMap fun j =>
      (List.range NUM_PODS).map (LinkKey.cor i j))

/-- The mutable state of the address helper: the current network base and
the next host number to hand out. -/
structure HelperState where
  network : IP
  nextHost : Nat

/-- `SetBase` discards whatever the helper held and restarts host
numbering at 1 inside the new base. -/
def SetBase (b : IP) : HelperState := ⟨b, 1⟩

/-- Assigning a two-device link consumes the next two host numbers of the
current base. -/
def AssignPair (st : HelperState) : (IP × IP) × HelperState :=
  (({ st.network with d := st.network.d + st.nextHost },
    { st.network with d := st.network.d + st.nextHost + 1 }),
   ⟨st.network, st.nextHost + 2⟩)

/-- One link of the planning pass: `SetBase` with the link's subnet, then
assign its two device addresses, recording them in the plan. -/
def planStep (acc : List (LinkKey × IP × IP) × HelperState) (k : LinkKey) :
    List (LinkKey × IP × IP) × HelperState :=
  let r := AssignPair (SetBase (linkBaseOf k))
  (acc.1 ++ [(k, r.1.1, r.1.2)], r.2)

/-- The address-planning pass exactly as the program runs it: one
`SetBase` followed by one assignment per link, threading the helper
state through, and recording each link's address pair. -/
def runAssign (st : HelperState) : List (LinkKey × IP × IP) × HelperState :=
  linkEvents.foldl planStep ([], st)

/-- The closed-form address plan: each link paired with its two
per-formula addresses. -/
def purePlan : List (LinkKey × IP × IP) :=
  linkEvents.map fun k => (k, linkAddrA k, linkAddrB k)

/-- Looking a link up in a computed plan, as the `interfaces` map does. -/
def planLookup (plan : List (LinkKey × IP × IP)) (k : LinkKey) : IP × IP :=
  ((plan.find? fun e => decide (e.1 = k)).map fun e => (e.2.1, e.2.2)).getD
    (⟨0, 0, 0, 0⟩, ⟨0, 0, 0, 0⟩)

/-- Route synthesis as the program performs it, reading every next hop and
egress interface out of a computed address plan `ifs` (section 5 of
`main`); with the closed-form addresses it coincides with `staticRoutes`. -/
def synthRoutes (ifs : LinkKey → IP × IP) : FNode → List RouteEntry
  | .server pod s =>
      [⟨⟨0, 0, 0, 0⟩, 0, some (ifs (.srv pod s)).2, (ifs (.srv pod s)).1⟩]
  | .access pod a =>
      ⟨⟨10, pod, 1 - a, 0⟩, 24, some (ifs (.acc pod a 0)).2, (ifs (.acc pod a 0)).1⟩ ::
      (((List.range NUM_PODS).filter fun q => !decide (q = pod)).map fun q =>
        ⟨⟨10, q, 0, 0⟩, 16, some (ifs (.acc pod a 0)).2, (ifs (.acc pod a 0)).1⟩)
  | .aggr pod g =>
      ((List.range 2).map fun acc =>
        ⟨⟨10, pod, acc, 0⟩, 24, some (ifs (.acc pod acc g)).1, (ifs (.acc pod acc g)).2⟩) ++
      ((List.range (K / 2)).flatMap fun j =>
        ((List.range NUM_PODS).filter fun q => !decide (q = pod)).map fun q =>
          ⟨⟨10, q, 0, 0⟩, 16, some (ifs (.cor g j pod)).2, (ifs (.cor g j pod)).1⟩)
  | .core c =>
      (List.range NUM_PODS).map fun pod =>
        ⟨⟨10, pod, 0, 0⟩, 16, some (ifs (.cor (c / 2) (c % 2) pod)).1,
         (ifs (.cor (c / 2) (c % 2) pod)).2⟩

end FatTree

/-!
The self-learning L2 switch of `src/l2-switch-protocol/l2-switch-protocol.cc`,
re-expressed as a pure function of (MAC table, inbound frame) returning the
list of egress devices, with devices named by their index on the node.
-/

namespace L2Switch

/-- The all-ones 48-bit broadcast MAC address. -/
def broadcastMac : Nat := 0xffffffffffff

/-- A switch's state: how many devices the node has, and the learned
MAC-to-device map (`m_macTable`). -/
structure SwState where
  nDevices : Nat
  macTable : Nat → Option Nat

/-- MAC learning (lines 344-362): after `Learn`, the source maps to the
ingress device, whether it was new or had moved. -/
def Learn (st : SwState) (source inDevice : Nat) : SwState :=
  { st with macTable := fun m => if m = source then some inDevice else st.macTable m }

/-- Table lookup (lines 366-371). -/
def GetLearnedPort (st : SwState) (destination : Nat) : Option Nat :=
  st.macTable destination

/-- Flooding (lines 389-407): one copy out of every device of the node
except the ingress device. -/
def ForwardBroadcast (st : SwState) (inDevice : Nat) : List Nat :=
  (List.range st.nDevices).filter fun i => !decide (i = inDevice)

/-- The receive callback (lines 287-340): learn the source, then either
flood a broadcast frame, unicast a learned destination, flood an unknown
destination, or drop when the learned port is the ingress device.
Returns the updated state and the egress devices that get a copy. -/
def ReceiveFromDevice (st : SwState) (inDevice source destination : Nat) :
    SwState × List Nat :=
  let st1 := Learn st source inDevice
  if destination = broadcastMac then
    (st1, ForwardBroadcast st1 inDevice)
  else
    match GetLearnedPort st1 destination with
    | some outDevice =>
        if outDevice = inDevice then (st1, []) else (st1, [outDevice])
    | none => (st1, ForwardBroadcast st1 inDevice)

end L2Switch

/-!
Theorems.  C1-C9 concern the fat-tree program, C10 the L2 switch.
-/

namespace FatTree

/-- For every link, one `SetBase` followed by the assignment yields the
closed-form address pair, independently of the helper's previous state. -/
theorem AssignPair_SetBase (k : LinkKey) :
    AssignPair (SetBase (linkBaseOf k)) =
      ((linkAddrA k, linkAddrB k), ⟨linkBaseOf k, 3⟩) := by
  cases k <;> rfl

/-- The accumulated plan of the stateful pass is the closed-form plan,
whatever helper state the pass starts from. -/
theorem foldl_planStep_closed (evs : List LinkKey) :
    ∀ (acc : List (LinkKey × IP × IP)) (st : HelperState),
      (evs.foldl planStep (acc, st)).1 =
        acc ++ evs.map fun k => (k, linkAddrA k, linkAddrB k) := by
  induction evs with
  | nil => intro acc st; simp
  | cons k t ih =>
      intro acc st
      have h : planStep (acc, st) k =
          (acc ++ [(k, linkAddrA k, linkAddrB k)], ⟨linkBaseOf k, 3⟩) := by
        simp [planStep, AssignPair_SetBase]
      rw [List.foldl_cons, h, ih]
      simp

/-- The plan computed by the program equals the closed-form plan. -/
theorem runAssign_closed (st : HelperState) : (runAssign st).1 = purePlan := by
  simpa [runAssign, purePlan] using foldl_planStep_closed linkEvents [] st

/-- Synthesis fed with the closed-form plan produces, on every node of the
fabric, exactly the tables `staticRoutes` gives in closed form. -/
theorem synthRoutes_purePlan :
    allNodes.all
      (fun n => decide (synthRoutes (planLookup purePlan) n = staticRoutes n)) = true := by
  decide!

/-- C8 (confirmed): address planning and route synthesis are
deterministic.  Runs from any two helper states produce the identical
plan; re-running the pass from the state the first run left behind
reproduces the first plan byte for byte; the plan is the closed-form pure
function of the topology; and route synthesis over the computed plan
yields, on every node, the same tables as the closed form — so a second
synthesis run is structurally identical to the first. -/
theorem C8_deterministic_plan (st st2 : HelperState) :
    (runAssign st).1 = (runAssign st2).1 ∧
    (runAssign ((runAssign st).2)).1 = (runAssign st).1 ∧
    (runAssign st).1 = purePlan ∧
    allNodes.all
      (fun n =>
        decide (synthRoutes (planLookup (runAssign st).1) n = staticRoutes n)) = true := by
  refine ⟨?_, ?_, runAssign_closed st, ?_⟩
  · rw [runAssign_closed st, runAssign_closed st2]
  · rw [runAssign_closed ((runAssign st).2), runAssign_closed st]
  · rw [runAssign_closed st]
    exact synthRoutes_purePlan

/-- C1 (counterexample to the claim as stated): between the two servers of
Pod 0 AccessSwitch 0 the unique forwarding path is
server - access switch - server, which traverses 1 intermediate switch,
not 0: the claimed bound of 0 intermediate switches for the shared-access
case is violated. -/
theorem C1_claimed_bound_counterexample :
    runPaths 10 (FNode.server 0 0) (serverAddr 0 1) =
      [[FNode.server 0 0, FNode.access 0 0, FNode.server 0 1]] ∧
    ¬ ([FNode.server 0 0, FNode.access 0 0, FNode.server 0 1].length ≤ 0 + 2) := by
  decide!

/-- C1 (amended): for every ordered pair of distinct servers, every
longest-prefix-match forwarding path (under any resolution of equal-prefix
ties) reaches the destination server, never visits a node twice, and
traverses at most 1 intermediate switch under a shared access switch, 3
within a pod across access switches, and 5 across pods. -/
theorem C1_delivery_within_bounds :
    ∀ p1 s1 p2 s2 : Fin 4, (p1, s1) ≠ (p2, s2) →
      ∀ path ∈ runPaths 10 (FNode.server p1.1 s1.1) (serverAddr p2.1 s2.1),
        path.getLast? = some (FNode.server p2.1 s2.1) ∧ path.Nodup ∧
        path.length ≤ hopBound p1.1 s1.1 p2.1 s2.1 + 2 := by
  decide!

/-- Witness for C1: the concrete cross-pod path through core switch 0 from
Pod 1 Server 0 back to Pod 0 Server 0, instantiating the bound theorem. -/
theorem C1_delivery_witness :
    [FNode.server 1 0, FNode.access 1 0, FNode.aggr 1 0, FNode.core 0,
        FNode.aggr 0 0, FNode.access 0 0, FNode.server 0 0].getLast? =
      some (FNode.server 0 0) ∧
    [FNode.server 1 0, FNode.access 1 0, FNode.aggr 1 0, FNode.core 0,
        FNode.aggr 0 0, FNode.access 0 0, FNode.server 0 0].Nodup ∧
    [FNode.server 1 0, FNode.access 1 0, FNode.aggr 1 0, FNode.core 0,
        FNode.aggr 0 0, FNode.access 0 0, FNode.server 0 0].length ≤
      hopBound 1 0 0 0 + 2 :=
  C1_delivery_within_bounds 1 0 0 0 (by decide)
    [FNode.server 1 0, FNode.access 1 0, FNode.aggr 1 0, FNode.core 0,
     FNode.aggr 0 0, FNode.access 0 0, FNode.server 0 0] (by decide)

/-- C2 (counterexample to the claim as stated): Pod 0 AggregationSwitch 0
ends up with two installed /16 entries for destination 10.1.0.0 of equal
prefix length and different next hops (via core 0 and via core 1) — the
conflict is not rejected, both entries coexist. -/
theorem C2_duplicate_routes_counterexample :
    (staticRoutes (FNode.aggr 0 0)).filter
        (fun e => decide (e.dest = ⟨10, 1, 0, 0⟩) && decide (e.maskLen = 16)) =
      [⟨⟨10, 1, 0, 0⟩, 16, some ⟨10, 10, 0, 2⟩, ⟨10, 10, 0, 1⟩⟩,
       ⟨⟨10, 1, 0, 0⟩, 16, some ⟨10, 10, 0, 18⟩, ⟨10, 10, 0, 17⟩⟩] ∧
    ¬ (some (⟨10, 10, 0, 2⟩ : IP) = some (⟨10, 10, 0, 18⟩ : IP)) := by
  decide!

/-- C2 (amended): the synthesis pass installs, on every aggregation switch
and for every other pod, exactly two equal-prefix-length /16 entries with
pairwise different next hops — one per attached core switch — and no
conflict is ever rejected or surfaced. -/
theorem C2_coexisting_equal_length_routes :
    ∀ p : Fin 4, ∀ g : Fin 2, ∀ q : Fin 4,
      ((staticRoutes (FNode.aggr p.1 g.1)).filter
          (fun e => decide (e.dest = ⟨10, q.1, 0, 0⟩) && decide (e.maskLen = 16))).length =
        (if q = p then 0 else 2) ∧
      (((staticRoutes (FNode.aggr p.1 g.1)).filter
          (fun e => decide (e.dest = ⟨10, q.1, 0, 0⟩) && decide (e.maskLen = 16))).map
          (fun e => e.gw)).Nodup := by
  decide!

/-- C3 (confirmed): the /30 subnets of all 48 links the program creates
are pairwise disjoint. -/
theorem C3_subnet_disjointness : allLinkBases.Pairwise disjoint30 := by
  decide!

/-- C4 (counterexample to the claim as stated): the routing state of Pod 0
AggregationSwitch 1 toward 10.2.0.0/16 is not one multi-candidate entry:
it consists of two separate entries. -/
theorem C4_single_entry_counterexample :
    ¬ (((staticRoutes (FNode.aggr 0 1)).filter
          (fun e => decide (e.dest = ⟨10, 2, 0, 0⟩) && decide (e.maskLen = 16))).length = 1) ∧
    ((staticRoutes (FNode.aggr 0 1)).filter
        (fun e => decide (e.dest = ⟨10, 2, 0, 0⟩) && decide (e.maskLen = 16))).length = 2 := by
  decide!

/-- C4 (amended): toward each other pod an aggregation switch holds two
separate single-next-hop entries, which together retain both qualifying
(nextHop, interface) pairs — one per attached core switch; the two next
hops resolve to the two core switches the aggregation switch is linked
to. -/
theorem C4_two_single_candidate_entries :
    ∀ p : Fin 4, ∀ g : Fin 2, ∀ q : Fin 4,
      (((staticRoutes (FNode.aggr p.1 g.1)).filter
          (fun e => decide (e.dest = ⟨10, q.1, 0, 0⟩) && decide (e.maskLen = 16))).map
          (fun e => (e.gw, e.iface))) =
        (if q = p then [] else
          [(some (coreLinkCoreAddr g.1 0 p.1), coreLinkAggrAddr g.1 0 p.1),
           (some (coreLinkCoreAddr g.1 1 p.1), coreLinkAggrAddr g.1 1 p.1)]) ∧
      ownerOf (coreLinkCoreAddr g.1 0 p.1) = some (FNode.core (2 * g.1)) ∧
      ownerOf (coreLinkCoreAddr g.1 1 p.1) = some (FNode.core (2 * g.1 + 1)) ∧
      linked (FNode.aggr p.1 g.1) (FNode.core (2 * g.1)) = true ∧
      linked (FNode.aggr p.1 g.1) (FNode.core (2 * g.1 + 1)) = true := by
  decide!

/-- C5 (confirmed): each core switch's synthesized table holds exactly 4
entries — one /16 per pod, each with a single next hop resolving to the
unique aggregation switch of that pod the core switch is linked to. -/
theorem C5_core_tables :
    ∀ c : Fin 4,
      (staticRoutes (FNode.core c.1)).length = 4 ∧
      ∀ p : Fin 4,
        ((staticRoutes (FNode.core c.1)).filter
            (fun e => decide (e.dest = ⟨10, p.1, 0, 0⟩) && decide (e.maskLen = 16))).length = 1 ∧
        ((staticRoutes (FNode.core c.1)).filter
            (fun e => decide (e.dest = ⟨10, p.1, 0, 0⟩) && decide (e.maskLen = 16))).all
            (fun e => decide (e.gw.bind ownerOf = some (FNode.aggr p.1 (c.1 / 2)))) = true ∧
        ((List.range 2).filter fun g => linked (FNode.core c.1) (FNode.aggr p.1 g)) =
          [c.1 / 2] := by
  decide!

/-- C6 (confirmed): the longest-prefix-match lookup in Pod 0
AccessSwitch 1's table for 10.0.0.1 — the first server under Pod 0
AccessSwitch 0 — returns the single /24 aggregate 10.0.0.0/24 via
10.0.2.26, the shared aggregation switch Pod0.Aggr0, and no /30 entry of
that table matches the address. -/
theorem C6_sibling_lookup :
    matchingBest (routeTable (FNode.access 0 1)) ⟨10, 0, 0, 1⟩ =
      [⟨⟨10, 0, 0, 0⟩, 24, some ⟨10, 0, 2, 26⟩, ⟨10, 0, 2, 25⟩⟩] ∧
    some (⟨10, 0, 2, 26⟩ : IP) = some (accAggrAggrAddr 0 1 0) ∧
    ownerOf ⟨10, 0, 2, 26⟩ = some (FNode.aggr 0 0) ∧
    serverAddr 0 0 = ⟨10, 0, 0, 1⟩ ∧
    (routeTable (FNode.access 0 1)).all
      (fun e => !(decide (e.maskLen = 30) && maskMatch 30 e.dest ⟨10, 0, 0, 1⟩)) = true := by
  decide!

/-- C7 (counterexample to the claim as stated): growing k beyond the
dimensioned capacity produces no failure — the planner formulas simply
reuse a /30.  At k=12 the link list contains two distinct links (pod 10's
first server link, at index 80, and the first aggregation-core link, at
index 96) whose /30 subnets coincide instead of being disjoint. -/
theorem C7_no_exhaustion_counterexample :
    ¬ disjoint30 ((allLinkBasesG 12).getD 80 ⟨0, 0, 0, 0⟩)
        ((allLinkBasesG 12).getD 96 ⟨0, 0, 0, 0⟩) ∧
    (80 : Nat) ≠ 96 ∧
    80 < (allLinkBasesG 12).length ∧ 96 < (allLinkBasesG 12).length := by
  decide!

/-- C7 (amended): the address arithmetic is dimensioned for k=4 only and
has no failure path; beyond that it silently reuses subnets.  At k=12 the
first server link of pod 10 and core-link 0 both receive 10.10.0.0/30;
and once the global core-link counter reaches 16384 (in range for k=42)
the third octet wraps modulo 256, so core-link 16384 reuses core-link 0's
subnet. -/
theorem C7_silent_reuse :
    serverLinkBase 10 0 = coreLinkBaseOfSeq 0 ∧
    (allLinkBasesG 12).getD 80 ⟨0, 0, 0, 0⟩ = serverLinkBase 10 0 ∧
    (allLinkBasesG 12).getD 96 ⟨0, 0, 0, 0⟩ = coreLinkBaseOfSeq 0 ∧
    coreLinkBaseOfSeq 16384 = coreLinkBaseOfSeq 0 ∧
    16384 < numCoreLinksG 42 := by
  decide!

/-- C9 (confirmed): every synthesized route of every access switch — the
sibling /24 and the three cross-pod /16s — carries the same next hop and
egress interface, namely the switch's link to the pod's aggregation
switch 0; the interface toward aggregation switch 1 is never an egress,
and no best-match hop for any server destination resolves to aggregation
switch 1. -/
theorem C9_single_uplink :
    ∀ p : Fin 4, ∀ a : Fin 2,
      (staticRoutes (FNode.access p.1 a.1)).length = 4 ∧
      (staticRoutes (FNode.access p.1 a.1)).all
        (fun e => decide (e.gw = some (accAggrAggrAddr p.1 a.1 0)) &&
          decide (e.iface = accAggrAccessAddr p.1 a.1 0)) = true ∧
      ownerOf (accAggrAggrAddr p.1 a.1 0) = some (FNode.aggr p.1 0) ∧
      (staticRoutes (FNode.access p.1 a.1)).all
        (fun e => !decide (e.iface = accAggrAccessAddr p.1 a.1 1)) = true ∧
      allServerAddrs.all
        (fun dq => (nextNodes (FNode.access p.1 a.1) dq).all
          (fun m => !decide (m = FNode.aggr p.1 1))) = true := by
  decide!

end FatTree

namespace L2Switch

/-- Membership in a flood: exactly the node's devices other than the
ingress device. -/
theorem mem_ForwardBroadcast {st : SwState} {i d : Nat} :
    d ∈ ForwardBroadcast st i ↔ d < st.nDevices ∧ d ≠ i := by
  simp [ForwardBroadcast, List.mem_filter, List.mem_range]

/-- A flood list never repeats a device. -/
theorem nodup_ForwardBroadcast (st : SwState) (i : Nat) :
    (ForwardBroadcast st i).Nodup :=
  List.Nodup.filter _ (List.nodup_range _)

/-- C10 (confirmed): the receive handler never sends a frame back out of
the device it arrived on; a unicast frame whose learned port equals the
ingress device produces no send at all; and every flood (broadcast
destination, or unknown unicast destination) emits exactly one copy on
each of the node's devices except the ingress device. -/
theorem C10_no_ingress_echo (st : SwState) (inDevice source destination : Nat)
    (h : inDevice < st.nDevices) :
    inDevice ∉ (ReceiveFromDevice st inDevice source destination).2 ∧
    (ReceiveFromDevice st inDevice source destination).2.Nodup ∧
    ((destination = broadcastMac ∨
        GetLearnedPort (Learn st source inDevice) destination = none) →
      (ReceiveFromDevice st inDevice source destination).2 =
        ForwardBroadcast (Learn st source inDevice) inDevice ∧
      ∀ d, d < st.nDevices → d ≠ inDevice →
        (ReceiveFromDevice st inDevice source destination).2.count d = 1) ∧
    ((destination ≠ broadcastMac ∧
        GetLearnedPort (Learn st source inDevice) destination = some inDevice) →
      (ReceiveFromDevice st inDevice source destination).2 = []) := by
  have hflood : ∀ d, d < st.nDevices → d ≠ inDevice →
      (ForwardBroadcast (Learn st source inDevice) inDevice).count d = 1 := by
    intro d hd hne
    refine List.count_eq_one_of_mem (nodup_ForwardBroadcast _ _) ?_
    exact mem_ForwardBroadcast.mpr ⟨hd, hne⟩
  by_cases hb : destination = broadcastMac
  · have hr : ReceiveFromDevice st inDevice source destination =
        (Learn st source inDevice,
         ForwardBroadcast (Learn st source inDevice) inDevice) := by
      simp [ReceiveFromDevice, hb]
    rw [hr]
    refine ⟨?_, nodup_ForwardBroadcast _ _, ?_, ?_⟩
    · intro hmem
      exact (mem_ForwardBroadcast.mp hmem).2 rfl
    · intro _
      exact ⟨rfl, hflood⟩
    · intro hc
      exact absurd hb hc.1
  · rcases hl : GetLearnedPort (Learn st source inDevice) destination with _ | out
    · have hr : ReceiveFromDevice st inDevice source destination =
          (Learn st source inDevice,
           ForwardBroadcast (Learn st source inDevice) inDevice) := by
        simp [ReceiveFromDevice, hb, hl]
      rw [hr]
      refine ⟨?_, nodup_ForwardBroadcast _ _, ?_, ?_⟩
      · intro hmem
        exact (mem_ForwardBroadcast.mp hmem).2 rfl
      · intro _
        exact ⟨rfl, hflood⟩
      · intro hc
        exact Option.noConfusion hc.2
    · by_cases ho : out = inDevice
      · have hr : ReceiveFromDevice st inDevice source destination =
            (Learn st source inDevice, []) := by
          simp [ReceiveFromDevice, hb, hl, ho]
        rw [hr]
        refine ⟨List.not_mem_nil _, List.nodup_nil, ?_, fun _ => rfl⟩
        intro hc
        rcases hc with hc | hc
        · exact absurd hc hb
        · exact Option.noConfusion hc
      · have hr : ReceiveFromDevice st inDevice source destination =
            (Learn st source inDevice, [out]) := by
          simp [ReceiveFromDevice, hb, hl, ho]
        rw [hr]
        refine ⟨?_, List.nodup_singleton _, ?_, ?_⟩
        · intro hmem
          exact ho (List.mem_singleton.mp hmem).symm
        · intro hc
          rcases hc with hc | hc
          · exact absurd hc hb
          · exact Option.noConfusion hc
        · intro hc
          exact absurd (Option.some.inj hc.2) ho

/-- Witness for C10: on a 3-device switch whose table maps MAC 7 to
device 1, a unicast frame for MAC 7 arriving on device 1 yields no copy
on device 1 (it is in fact dropped). -/
theorem C10_no_ingress_echo_witness :
    (1 : Nat) ∉
      (ReceiveFromDevice ⟨3, fun m => if m = 7 then some 1 else none⟩ 1 5 7).2 :=
  (C10_no_ingress_echo ⟨3, fun m => if m = 7 then some 1 else none⟩ 1 5 7
    (by decide)).1

end L2Switch
